import Mathlib

/-
  Verification of the batched simulation engine of the mjaccess shim
  (src/NativeShim/mjaccess.c, src/NativeShim/mjaccess.h).

  Shallow embedding notes.
  The shim never computes with the double-precision scalars it moves: every
  operation is a plain memcpy of machine words.  Scalars are therefore
  modelled by their bit patterns, as integers (`Val`).  The underlying
  physics engine (MuJoCo's mj_step / mj_makeData / mj_resetData) is an
  external collaborator; it is modelled by explicit function parameters
  (`stepFn`, `makeData`, `defaultState`).  C pointers that may be NULL are
  modelled as `Option`; in-place mutation is modelled by returning the
  updated value.
-/

namespace MjAccess

/-- A double-precision scalar, abstracted to its bit pattern (the shim only
copies scalars, it never computes with them). -/
abbrev Val := Int

/-- The subset of mjModel the batched engine reads: the dimensionality
constants `nq`, `nv`, `nu`, `nbody` and the one mutable field
`opt.iterations` (written by the solver-iteration override in
`mjaccess_batched_create`). -/
structure MjModel where
  nq : Nat
  nv : Nat
  nu : Nat
  nbody : Nat
  optIterations : Int
deriving DecidableEq, Inhabited

/-- The subset of mjData the batched engine touches: the control vector
written by `mjaccess_batched_step`, the state vectors written by the per-slot
scatters, and every field exported by a BATCHED_GATHER instance. -/
structure MjData where
  qpos : List Val
  qvel : List Val
  ctrl : List Val
  xpos : List Val
  subtree_com : List Val
  cinert : List Val
  cvel : List Val
  qfrc_actuator : List Val
  cfrc_ext : List Val
deriving DecidableEq, Inhabited

/-- mjaccess.h: `MjAccessBatchedConfig` (num_envs, solver_iterations;
0 = model default). -/
structure MjAccessBatchedConfig where
  num_envs : Int
  solver_iterations : Int
deriving DecidableEq, Inhabited

/-- mjaccess.c: `struct MjAccessBatchedSim`.  `model_ref` is the non-owning
reference to the shared model (a snapshot, since the batch code never writes
it after creation), `datas` the array of `num_envs` per-environment states,
and one pre-allocated contiguous gather buffer per exported field. -/
structure MjAccessBatchedSim where
  model_ref : MjModel
  num_envs : Nat
  datas : List MjData
  qpos_buf : List Val
  qvel_buf : List Val
  xpos_buf : List Val
  subtree_com_buf : List Val
  cinert_buf : List Val
  cvel_buf : List Val
  qfrc_actuator_buf : List Val
  cfrc_ext_buf : List Val
deriving DecidableEq, Inhabited

/-- `memcpy(dst + off, src, |src| * sizeof(double))`: overwrite
`dst[off .. off + |src|)` with `src`, leaving the rest of `dst` unchanged.
Faithful to the C memcpy whenever `off + |src| ≤ |dst|` (the in-bounds
case); an out-of-bounds memcpy in the C code is flagged separately. -/
def writeAt (dst : List Val) (off : Nat) (src : List Val) : List Val :=
  dst.take off ++ src ++ dst.drop (off + src.length)

/-- mjaccess.c `mjaccess_set_ctrl`: guard against NULL data/ctrl and
`n <= 0`, then `memcpy(data->mj->ctrl, ctrl, n * sizeof(double))`.  Reading
`n` doubles from the source buffer is modelled by `take n`. -/
def mjaccess_set_ctrl (data : Option MjData) (ctrl : Option (List Val)) (n : Int) :
    Option MjData :=
  match data, ctrl with
  | some d, some c =>
      if n ≤ 0 then some d
      else some { d with ctrl := writeAt d.ctrl 0 (c.take n.toNat) }
  | _, _ => data

/-- mjaccess.c `mjaccess_step`: `mj_step(model->mj, data->mj)` when both
handles are non-NULL, otherwise a no-op.  The external physics step is the
parameter `stepFn`; the MuJoCo contract (and section 2 of the spec) treats
it as an opaque primitive advancing one isolated state. -/
def mjaccess_step (stepFn : MjModel → MjData → MjData)
    (model : Option MjModel) (data : Option MjData) : Option MjData :=
  match model, data with
  | some m, some d => some (stepFn m d)
  | _, _ => data

/-- mjaccess.c `mjaccess_batched_step`: guard `!sim || !ctrl`, then
`dispatch_apply` over i = 0 .. num_envs-1 where each task does
`memcpy(d->ctrl, ctrl + i*nu, nu * sizeof(double)); mj_step(m, d);` on its
own slot `datas[i]` only.  Because each task reads and writes slot i alone
(the model is only read), the unordered parallel fan-out is
result-equivalent to the index-ordered map below. -/
def mjaccess_batched_step (stepFn : MjModel → MjData → MjData)
    (sim : Option MjAccessBatchedSim) (ctrl : Option (List Val)) :
    Option MjAccessBatchedSim :=
  match sim, ctrl with
  | some s, some c =>
      let m := s.model_ref
      let nu := m.nu
      some { s with datas :=
        (List.range s.num_envs).map (fun i =>
          let d := s.datas.getD i default
          stepFn m { d with ctrl := writeAt d.ctrl 0 ((c.drop (i * nu)).take nu) }) }
  | _, _ => sim

/-- mjaccess.c `mjaccess_batched_reset`: guard `!sim || !reset_mask`, then
for each i, `if (reset_mask[i]) mj_resetData(m, sim->datas[i])`.  The
external `mj_resetData` overwrites a state with the model's default state,
modelled by the parameter `defaultState`. -/
def mjaccess_batched_reset (defaultState : MjModel → MjData)
    (sim : Option MjAccessBatchedSim) (mask : Option (List Bool)) :
    Option MjAccessBatchedSim :=
  match sim, mask with
  | some s, some mk =>
      some { s with datas :=
        (List.range s.num_envs).map (fun i =>
          if mk.getD i false then defaultState s.model_ref
          else s.datas.getD i default) }
  | _, _ => sim

/-- The gather loop of the BATCHED_GATHER macro in mjaccess.c, unrolled from
the top index: `for (i = 0; i < ne; i++) memcpy(buf + i*per_env,
sim->datas[i]->field, per_env * sizeof(double));`.
`gatherLoop datas field per buf n` has performed the iterations
i = 0 .. n-1. -/
def gatherLoop (datas : List MjData) (field : MjData → List Val) (per : Nat)
    (buf : List Val) : Nat → List Val
  | 0 => buf
  | n + 1 =>
      writeAt (gatherLoop datas field per buf n) (n * per)
        ((field (datas.getD n default)).take per)

/-- The pair a BATCHED_GATHER instance returns: the buffer pointer (NULL on a
NULL sim) and the value stored through `n_out` (a C int). -/
structure GatherResult where
  buf : Option (List Val)
  n_out : Int
deriving DecidableEq, Inhabited

/-- mjaccess.c macro `BATCHED_GATHER(name, field, per_env_expr, buf_field)`:
guard `!sim` (reporting a NULL buffer and length 0), then copy each slot's
field into the pre-allocated buffer at offset `i * per_env` and report
`ne * per_env`.  The buffer lives inside the sim, so the updated sim is
returned alongside the result (C mutates it in place). -/
def BATCHED_GATHER (field : MjData → List Val) (per_env : MjModel → Nat)
    (buf_get : MjAccessBatchedSim → List Val)
    (buf_set : MjAccessBatchedSim → List Val → MjAccessBatchedSim)
    (sim : Option MjAccessBatchedSim) :
    GatherResult × Option MjAccessBatchedSim :=
  match sim with
  | none => ({ buf := none, n_out := 0 }, none)
  | some s =>
      let ne := s.num_envs
      let per := per_env s.model_ref
      let newbuf := gatherLoop s.datas field per (buf_get s) ne
      ({ buf := some newbuf, n_out := ((ne * per : Nat) : Int) }, some (buf_set s newbuf))

/-- mjaccess.c `BATCHED_GATHER(qpos, qpos, sim->model_ref->nq, qpos_buf)`. -/
def mjaccess_batched_get_qpos (sim : Option MjAccessBatchedSim) :
    GatherResult × Option MjAccessBatchedSim :=
  BATCHED_GATHER (fun d => d.qpos) (fun m => m.nq) (fun s => s.qpos_buf)
    (fun s b => { s with qpos_buf := b }) sim

/-- mjaccess.c `BATCHED_GATHER(qvel, qvel, sim->model_ref->nv, qvel_buf)`. -/
def mjaccess_batched_get_qvel (sim : Option MjAccessBatchedSim) :
    GatherResult × Option MjAccessBatchedSim :=
  BATCHED_GATHER (fun d => d.qvel) (fun m => m.nv) (fun s => s.qvel_buf)
    (fun s b => { s with qvel_buf := b }) sim

/-- mjaccess.c `BATCHED_GATHER(xpos, xpos, sim->model_ref->nbody * 3,
xpos_buf)`. -/
def mjaccess_batched_get_xpos (sim : Option MjAccessBatchedSim) :
    GatherResult × Option MjAccessBatchedSim :=
  BATCHED_GATHER (fun d => d.xpos) (fun m => m.nbody * 3) (fun s => s.xpos_buf)
    (fun s b => { s with xpos_buf := b }) sim

/-- mjaccess.c `BATCHED_GATHER(subtree_com, subtree_com,
sim->model_ref->nbody * 3, subtree_com_buf)`. -/
def mjaccess_batched_get_subtree_com (sim : Option MjAccessBatchedSim) :
    GatherResult × Option MjAccessBatchedSim :=
  BATCHED_GATHER (fun d => d.subtree_com) (fun m => m.nbody * 3)
    (fun s => s.subtree_com_buf) (fun s b => { s with subtree_com_buf := b }) sim

/-- mjaccess.c `BATCHED_GATHER(cinert, cinert, sim->model_ref->nbody * 10,
cinert_buf)`. -/
def mjaccess_batched_get_cinert (sim : Option MjAccessBatchedSim) :
    GatherResult × Option MjAccessBatchedSim :=
  BATCHED_GATHER (fun d => d.cinert) (fun m => m.nbody * 10)
    (fun s => s.cinert_buf) (fun s b => { s with cinert_buf := b }) sim

/-- mjaccess.c `BATCHED_GATHER(cvel, cvel, sim->model_ref->nbody * 6,
cvel_buf)`. -/
def mjaccess_batched_get_cvel (sim : Option MjAccessBatchedSim) :
    GatherResult × Option MjAccessBatchedSim :=
  BATCHED_GATHER (fun d => d.cvel) (fun m => m.nbody * 6)
    (fun s => s.cvel_buf) (fun s b => { s with cvel_buf := b }) sim

/-- mjaccess.c `BATCHED_GATHER(qfrc_actuator, qfrc_actuator,
sim->model_ref->nv, qfrc_actuator_buf)`.  Note the per-environment dimension
in the source is `nv` (one generalized force per degree of freedom), not
`nu`. -/
def mjaccess_batched_get_qfrc_actuator (sim : Option MjAccessBatchedSim) :
    GatherResult × Option MjAccessBatchedSim :=
  BATCHED_GATHER (fun d => d.qfrc_actuator) (fun m => m.nv)
    (fun s => s.qfrc_actuator_buf) (fun s b => { s with qfrc_actuator_buf := b }) sim

/-- mjaccess.c `BATCHED_GATHER(cfrc_ext, cfrc_ext, sim->model_ref->nbody * 6,
cfrc_ext_buf)`. -/
def mjaccess_batched_get_cfrc_ext (sim : Option MjAccessBatchedSim) :
    GatherResult × Option MjAccessBatchedSim :=
  BATCHED_GATHER (fun d => d.cfrc_ext) (fun m => m.nbody * 6)
    (fun s => s.cfrc_ext_buf) (fun s b => { s with cfrc_ext_buf := b }) sim

/-- mjaccess.c `mjaccess_batched_set_env_qpos`: guard
`!sim || !qpos || env_idx < 0 || env_idx >= sim->num_envs`, then
`memcpy(sim->datas[env_idx]->qpos, qpos, nq * sizeof(double))` with the
caller-supplied count `nq`.  The abstract state update below coincides with
the C memcpy whenever `nq` does not exceed the capacity of the slot's qpos
array; the raw element count of the memcpy (which the C code does not clamp)
is exposed separately by `mjaccess_batched_set_env_qpos_copyCount`. -/
def mjaccess_batched_set_env_qpos (sim : Option MjAccessBatchedSim)
    (env_idx : Int) (qpos : Option (List Val)) (nq : Nat) :
    Option MjAccessBatchedSim :=
  match sim, qpos with
  | some s, some v =>
      if env_idx < 0 ∨ (s.num_envs : Int) ≤ env_idx then some s
      else
        some { s with datas :=
          (List.range s.num_envs).map (fun j =>
            if j = env_idx.toNat then
              let d := s.datas.getD j default
              { d with qpos := writeAt d.qpos 0 (v.take nq) }
            else s.datas.getD j default) }
  | _, _ => sim

/-- The number of doubles the memcpy in `mjaccess_batched_set_env_qpos`
copies: the caller-supplied `nq`, unclamped, whenever the guard
`!sim || !qpos || env_idx < 0 || env_idx >= sim->num_envs` passes, and 0
otherwise (the guard returns before any copy). -/
def mjaccess_batched_set_env_qpos_copyCount (sim : Option MjAccessBatchedSim)
    (env_idx : Int) (qposNonNull : Bool) (nq : Nat) : Nat :=
  match sim with
  | some s =>
      if qposNonNull = true ∧ 0 ≤ env_idx ∧ env_idx < (s.num_envs : Int) then nq else 0
  | none => 0

/-- mjaccess.c `mjaccess_batched_set_env_qvel`: same shape as the qpos
scatter, targeting the slot's qvel array with the caller-supplied count
`nv`. -/
def mjaccess_batched_set_env_qvel (sim : Option MjAccessBatchedSim)
    (env_idx : Int) (qvel : Option (List Val)) (nv : Nat) :
    Option MjAccessBatchedSim :=
  match sim, qvel with
  | some s, some v =>
      if env_idx < 0 ∨ (s.num_envs : Int) ≤ env_idx then some s
      else
        some { s with datas :=
          (List.range s.num_envs).map (fun j =>
            if j = env_idx.toNat then
              let d := s.datas.getD j default
              { d with qvel := writeAt d.qvel 0 (v.take nv) }
            else s.datas.getD j default) }
  | _, _ => sim

/-- The unclamped element count of the memcpy in
`mjaccess_batched_set_env_qvel` (0 when the guard returns early). -/
def mjaccess_batched_set_env_qvel_copyCount (sim : Option MjAccessBatchedSim)
    (env_idx : Int) (qvelNonNull : Bool) (nv : Nat) : Nat :=
  match sim with
  | some s =>
      if qvelNonNull = true ∧ 0 ≤ env_idx ∧ env_idx < (s.num_envs : Int) then nv else 0
  | none => 0

/-- The slot-allocation loop of `mjaccess_batched_create`:
`for (i = 0; i < ne; i++) { sim->datas[i] = mj_makeData(mj); if
(!sim->datas[i]) ... return NULL; }` over a calloc-zeroed (all-NULL) array.
`fillLoop makeData start count` is the array segment for indices
`start .. start + count - 1`: entries are filled in order and the loop stops
at the first allocation failure, leaving the remaining entries NULL. -/
def fillLoop (makeData : Nat → Option MjData) : Nat → Nat → List (Option MjData)
  | _, 0 => []
  | start, count + 1 =>
      match makeData start with
      | none => List.replicate (count + 1) none
      | some d => some d :: fillLoop makeData (start + 1) count

/-- The observable effect of `mjaccess_batched_free`: how many per-slot
states (`mj_deleteData`) and gather buffers (`free`) were released.  The
function is total, modelling that the call never faults. -/
structure FreeEffect where
  slotsFreed : Nat
  buffersFreed : Nat
deriving DecidableEq, Inhabited

/-- mjaccess.c `mjaccess_batched_free`: `if (!sim) return;` — a NULL pool
releases nothing; a live pool releases every slot and all eight gather
buffers. -/
def mjaccess_batched_free (sim : Option MjAccessBatchedSim) : FreeEffect :=
  match sim with
  | none => { slotsFreed := 0, buffersFreed := 0 }
  | some s => { slotsFreed := s.datas.length, buffersFreed := 8 }

/-- The result of `mjaccess_batched_create`: the returned pool (NULL on
failure), the shared model after the call (it is mutated in place by the
solver-iteration override), and the allocation accounting of the call:
how many per-slot states were allocated (`mj_makeData` successes) and how
many were released again (`mj_deleteData` via `mjaccess_batched_free` on
the failure path). -/
structure CreateResult where
  sim : Option MjAccessBatchedSim
  modelAfter : Option MjModel
  slotsAllocated : Nat
  slotsFreed : Nat

/-- mjaccess.c `mjaccess_batched_create`: guard
`!model || !model->mj || !config || config->num_envs <= 0`, allocate the
slot array (stopping at the first `mj_makeData` failure, in which case
`mjaccess_batched_free` releases the partial sim — deleting exactly the
non-NULL entries — and NULL is returned), apply the solver-iteration
override `if (config->solver_iterations > 0) mj->opt.iterations = ...`,
and pre-allocate the eight gather buffers with their source sizes.  malloc
returns uninitialized memory; the placeholder contents chosen here are
irrelevant because every gather fully overwrites its buffer (proved below
for arbitrary initial buffer contents of the allocated length).  The
external `mj_makeData` is the oracle parameter `makeData`, giving the
result of the i-th allocation call. -/
def mjaccess_batched_create (model : Option MjModel)
    (config : Option MjAccessBatchedConfig) (makeData : Nat → Option MjData) :
    CreateResult :=
  match model, config with
  | some m, some cfg =>
      if cfg.num_envs ≤ 0 then
        { sim := none, modelAfter := some m, slotsAllocated := 0, slotsFreed := 0 }
      else
        let ne := cfg.num_envs.toNat
        let entries := fillLoop makeData 0 ne
        let got := entries.filterMap id
        if entries.all (fun e => e.isSome) then
          let m2 := if cfg.solver_iterations > 0 then
              { m with optIterations := cfg.solver_iterations } else m
          { sim := some
              { model_ref := m2
                num_envs := ne
                datas := got
                qpos_buf := List.replicate (ne * m2.nq) 0
                qvel_buf := List.replicate (ne * m2.nv) 0
                xpos_buf := List.replicate (ne * m2.nbody * 3) 0
                subtree_com_buf := List.replicate (ne * m2.nbody * 3) 0
                cinert_buf := List.replicate (ne * m2.nbody * 10) 0
                cvel_buf := List.replicate (ne * m2.nbody * 6) 0
                qfrc_actuator_buf := List.replicate (ne * m2.nv) 0
                cfrc_ext_buf := List.replicate (ne * m2.nbody * 6) 0 }
            modelAfter := some m2
            slotsAllocated := got.length
            slotsFreed := 0 }
        else
          { sim := none, modelAfter := some m,
            slotsAllocated := got.length, slotsFreed := got.length }
  | _, _ => { sim := none, modelAfter := model, slotsAllocated := 0, slotsFreed := 0 }

/-- k successive calls of `mjaccess_batched_step` on the same pool, the t-th
call receiving the flat control buffer `ctrls t`. -/
def batchedStepIter (stepFn : MjModel → MjData → MjData)
    (sim : Option MjAccessBatchedSim) (ctrls : Nat → List Val) :
    Nat → Option MjAccessBatchedSim
  | 0 => sim
  | k + 1 =>
      mjaccess_batched_step stepFn (batchedStepIter stepFn sim ctrls k)
        (some (ctrls k))

/-- The single-environment trajectory: the state of one slot after k steps,
each step writing the leading nu entries of that step's control buffer into
the slot's control vector and then invoking the physics step. -/
def envStepIter (stepFn : MjModel → MjData → MjData) (m : MjModel) (d0 : MjData)
    (ctrls : Nat → List Val) : Nat → MjData
  | 0 => d0
  | k + 1 =>
      let d := envStepIter stepFn m d0 ctrls k
      stepFn m { d with ctrl := writeAt d.ctrl 0 ((ctrls k).take m.nu) }

/-- A concrete model for witnesses and counterexamples: nq = 2, nv = 2,
nu = 1 (control dimension different from the velocity dimension), one
body. -/
def exModel : MjModel :=
  { nq := 2, nv := 2, nu := 1, nbody := 1, optIterations := 1 }

/-- A concrete per-environment state for `exModel` (every array at its
model-determined length). -/
def exData : MjData :=
  { qpos := [10, 11], qvel := [20, 21], ctrl := [30]
    xpos := [1, 2, 3], subtree_com := [4, 5, 6]
    cinert := [1, 2, 3, 4, 5, 6, 7, 8, 9, 100]
    cvel := [1, 2, 3, 4, 5, 6], qfrc_actuator := [40, 41]
    cfrc_ext := [6, 5, 4, 3, 2, 1] }

/-- A concrete one-environment pool over `exModel`, with every gather buffer
at its allocated size. -/
def exSim : MjAccessBatchedSim :=
  { model_ref := exModel, num_envs := 1, datas := [exData]
    qpos_buf := [0, 0], qvel_buf := [0, 0], xpos_buf := [0, 0, 0]
    subtree_com_buf := [0, 0, 0]
    cinert_buf := [0, 0, 0, 0, 0, 0, 0, 0, 0, 0]
    cvel_buf := [0, 0, 0, 0, 0, 0], qfrc_actuator_buf := [0, 0]
    cfrc_ext_buf := [0, 0, 0, 0, 0, 0] }

/-- Overwriting a segment that fits inside the destination preserves the
destination's length. -/
lemma writeAt_length (dst src : List Val) (off : Nat)
    (h : off + src.length ≤ dst.length) :
    (writeAt dst off src).length = dst.length := by
  simp only [writeAt, List.length_append, List.length_take, List.length_drop]
  omega

/-- Indexing a map over `List.range`. -/
lemma getD_map_range {α : Type} (f : Nat → α) (n i : Nat) (d : α) (h : i < n) :
    ((List.range n).map f).getD i d = f i := by
  rw [List.getD_eq_getElem _ _ (by simpa using h)]
  simp

/-- Rebuilding a list from its `getD` entries over `List.range`. -/
lemma map_getD_range_self {α : Type} (l : List α) (d : α) :
    (List.range l.length).map (fun i => l.getD i d) = l := by
  apply List.ext_getElem
  · simp
  · intro i h1 h2
    have h3 : i < l.length := by simpa using h2
    rw [List.getElem_map, List.getElem_range, List.getD_eq_getElem _ _ h3]

/-- `getD` commutes with `map` at in-range indices. -/
lemma getD_map {α β : Type} (l : List α) (f : α → β) (i : Nat) (d : β) (d2 : α)
    (h : i < l.length) :
    (l.map f).getD i d = f (l.getD i d2) := by
  rw [List.getD_eq_getElem _ _ (by simpa using h), List.getD_eq_getElem _ _ h]
  simp

/-- Flattening a list of blocks of uniform length `per` gives a buffer of
length `count * per`. -/
lemma flatten_length_uniform (L : List (List Val)) (per : Nat)
    (h : ∀ l ∈ L, l.length = per) :
    L.flatten.length = L.length * per := by
  induction L with
  | nil => simp
  | cons hd tl ih =>
      have hhd := h hd (by simp)
      have htl : ∀ l ∈ tl, l.length = per := fun l hl => h l (by simp [hl])
      simp only [List.flatten_cons, List.length_append, List.length_cons, ih htl, hhd]
      ring

/-- Extracting block i from the flattening of uniform-length blocks. -/
lemma flatten_block_uniform (L : List (List Val)) (per : Nat)
    (h : ∀ l ∈ L, l.length = per) (i : Nat) (hi : i < L.length) :
    (L.flatten.drop (i * per)).take per = L.getD i [] := by
  induction L generalizing i with
  | nil => simp at hi
  | cons hd tl ih =>
      have hhd := h hd (by simp)
      have htl : ∀ l ∈ tl, l.length = per := fun l hl => h l (by simp [hl])
      cases i with
      | zero =>
          simp only [Nat.zero_mul, List.drop_zero, List.flatten_cons, List.getD_cons_zero]
          rw [← hhd, List.take_left]
      | succ j =>
          have hj : j < tl.length := by simpa using hi
          have harith : (j + 1) * per = hd.length + j * per := by
            rw [hhd]; ring
          simp only [List.flatten_cons, List.getD_cons_succ, harith]
          rw [List.drop_append]
          exact ih htl j hj

/-- The gather loop, run over the first `ne ≤ |datas|` slots whose field
arrays each hold at least `per` entries, writes the environment-major
flattening of the per-slot blocks over the leading `ne * per` buffer cells
and leaves the tail of the buffer unchanged. -/
lemma gatherLoop_spec (datas : List MjData) (field : MjData → List Val)
    (per : Nat) (buf : List Val) (ne : Nat) (hne : ne ≤ datas.length)
    (hfield : ∀ i, i < ne → per ≤ (field (datas.getD i default)).length) :
    gatherLoop datas field per buf ne =
      ((datas.take ne).map (fun d => (field d).take per)).flatten ++
        buf.drop (ne * per) := by
  induction ne with
  | zero => simp [gatherLoop]
  | succ n ih =>
      have hn : n < datas.length := by omega
      have hprefix : ∀ l ∈ (datas.take n).map (fun d => (field d).take per),
          l.length = per := by
        intro l hl
        obtain ⟨d, hd, rfl⟩ := List.mem_map.mp hl
        obtain ⟨j, hj, rfl⟩ := List.mem_iff_getElem.mp hd
        have hj2 : j < n := by
          have := hj
          simp only [List.length_take] at this
          omega
        have hj3 : j < datas.length := by omega
        have hget : (datas.take n)[j] = datas.getD j default := by
          rw [List.getElem_take, List.getD_eq_getElem _ _ hj3]
        rw [hget]
        have := hfield j (by omega)
        rw [List.length_take]
        omega
      have hflen :
          (((datas.take n).map (fun d => (field d).take per)).flatten).length =
            n * per := by
        rw [flatten_length_uniform _ per hprefix]
        simp [List.length_take]
        omega
      have hchunklen : ((field (datas.getD n default)).take per).length = per := by
        have := hfield n (by omega)
        rw [List.length_take]
        omega
      rw [gatherLoop, ih (by omega) (fun i hi => hfield i (by omega))]
      rw [writeAt]
      have htake :
          ((((datas.take n).map (fun d => (field d).take per)).flatten ++
            buf.drop (n * per)).take (n * per)) =
            ((datas.take n).map (fun d => (field d).take per)).flatten := by
        rw [← hflen, List.take_left]
      have hdroparith : n * per + ((field (datas.getD n default)).take per).length =
          (((datas.take n).map (fun d => (field d).take per)).flatten).length + per := by
        rw [hflen, hchunklen]
      have hdrop :
          ((((datas.take n).map (fun d => (field d).take per)).flatten ++
            buf.drop (n * per)).drop
              (n * per + ((field (datas.getD n default)).take per).length)) =
            buf.drop ((n + 1) * per) := by
        rw [hdroparith, List.drop_append, List.drop_drop]
        congr 1
        ring
      rw [htake, hdrop]
      have hsucc : datas.take (n + 1) = datas.take n ++ [datas.getD n default] := by
        rw [List.take_succ, List.getElem?_eq_getElem hn]
        congr 1
        rw [List.getD_eq_getElem _ _ hn]
        rfl
      rw [hsucc]
      simp [List.append_assoc]

/-- Index-wise uniform length transfers to every member of the mapped
list. -/
lemma mem_map_length_uniform (l : List MjData) (f : MjData → List Val) (per : Nat)
    (h : ∀ i, i < l.length → (f (l.getD i default)).length = per) :
    ∀ x ∈ l.map f, x.length = per := by
  intro x hx
  obtain ⟨d, hd, rfl⟩ := List.mem_map.mp hx
  obtain ⟨i, hi, rfl⟩ := List.mem_iff_getElem.mp hd
  have h2 := h i hi
  rwa [List.getD_eq_getElem _ _ hi] at h2

/-- When every slot's field array has exactly `per` entries, taking `per` of
each is the identity on the mapped list. -/
lemma map_take_eq_map (l : List MjData) (field : MjData → List Val) (per : Nat)
    (h : ∀ i, i < l.length → (field (l.getD i default)).length = per) :
    l.map (fun d => (field d).take per) = l.map field := by
  apply List.map_congr_left
  intro d hd
  obtain ⟨i, hi, rfl⟩ := List.mem_iff_getElem.mp hd
  have h2 := h i hi
  rw [List.getD_eq_getElem _ _ hi] at h2
  rw [← h2]
  exact List.take_length _

/-- Characterization of any BATCHED_GATHER instance on a live pool whose
slot count, buffer size and field dimensions satisfy the pool invariants:
the reported length is `ne * per_env` and the returned buffer is the
environment-major flattening of the slots' field arrays, independently of
the buffer's previous contents. -/
lemma BATCHED_GATHER_spec (field : MjData → List Val) (per_env : MjModel → Nat)
    (buf_get : MjAccessBatchedSim → List Val)
    (buf_set : MjAccessBatchedSim → List Val → MjAccessBatchedSim)
    (s : MjAccessBatchedSim)
    (hN : s.datas.length = s.num_envs)
    (hbuf : (buf_get s).length = s.num_envs * per_env s.model_ref)
    (hfield : ∀ i, i < s.num_envs →
      (field (s.datas.getD i default)).length = per_env s.model_ref) :
    (BATCHED_GATHER field per_env buf_get buf_set (some s)).1 =
      { buf := some ((s.datas.map field).flatten)
        n_out := ((s.num_envs * per_env s.model_ref : Nat) : Int) } := by
  have hfield2 : ∀ i, i < s.num_envs →
      per_env s.model_ref ≤ (field (s.datas.getD i default)).length := by
    intro i hi
    rw [hfield i hi]
  have hloop := gatherLoop_spec s.datas field (per_env s.model_ref) (buf_get s)
    s.num_envs (by omega) hfield2
  rw [BATCHED_GATHER]
  simp only []
  congr 1
  rw [hloop]
  have hdrop : (buf_get s).drop (s.num_envs * per_env s.model_ref) = [] := by
    rw [← hbuf]
    exact List.drop_length _
  have htake : s.datas.take s.num_envs = s.datas := by
    rw [← hN]
    exact List.take_length _
  rw [hdrop, htake, List.append_nil]
  rw [map_take_eq_map s.datas field (per_env s.model_ref)
    (fun i hi => hfield i (by omega))]

/-- Block extraction for any BATCHED_GATHER instance under the pool
invariants: the buffer segment `[i*per_env, (i+1)*per_env)` holds slot i's
field values. -/
lemma BATCHED_GATHER_block (field : MjData → List Val) (per_env : MjModel → Nat)
    (buf_get : MjAccessBatchedSim → List Val)
    (buf_set : MjAccessBatchedSim → List Val → MjAccessBatchedSim)
    (s : MjAccessBatchedSim)
    (hN : s.datas.length = s.num_envs)
    (hbuf : (buf_get s).length = s.num_envs * per_env s.model_ref)
    (hfield : ∀ i, i < s.num_envs →
      (field (s.datas.getD i default)).length = per_env s.model_ref)
    (b : List Val)
    (hb : (BATCHED_GATHER field per_env buf_get buf_set (some s)).1.buf = some b)
    (i : Nat) (hi : i < s.num_envs) :
    (b.drop (i * per_env s.model_ref)).take (per_env s.model_ref) =
      field (s.datas.getD i default) := by
  have hspec := BATCHED_GATHER_spec field per_env buf_get buf_set s hN hbuf hfield
  rw [hspec] at hb
  have huniform : ∀ x ∈ s.datas.map field, x.length = per_env s.model_ref :=
    mem_map_length_uniform s.datas field (per_env s.model_ref)
      (fun j hj => hfield j (by omega))
  have hbval : b = (s.datas.map field).flatten := by
    injection hb with h2
    exact h2.symm
  subst hbval
  have hilen : i < (s.datas.map field).length := by
    simp [hN]
    omega
  rw [flatten_block_uniform _ _ huniform i hilen]
  exact getD_map s.datas field i [] default (by omega)

/-- C2: for every pool of N environments whose slot array, gather buffer and
per-slot field dimensions satisfy the pool invariants, a batched gather
(any instance of the BATCHED_GATHER macro) reports length
N * perEnvDim(field), and the returned buffer holds, in the range
`[i*perEnvDim, (i+1)*perEnvDim)`, exactly slot i's live field values, for
every i < N.  The returned buffer equals the environment-major flattening of
the live slot fields regardless of the buffer's previous contents, so each
call fully overwrites the buffer. -/
theorem C2_batched_gather_layout (field : MjData → List Val)
    (per_env : MjModel → Nat) (buf_get : MjAccessBatchedSim → List Val)
    (buf_set : MjAccessBatchedSim → List Val → MjAccessBatchedSim)
    (s : MjAccessBatchedSim)
    (hN : s.datas.length = s.num_envs)
    (hbuf : (buf_get s).length = s.num_envs * per_env s.model_ref)
    (hfield : ∀ i, i < s.num_envs →
      (field (s.datas.getD i default)).length = per_env s.model_ref) :
    (BATCHED_GATHER field per_env buf_get buf_set (some s)).1.n_out =
      ((s.num_envs * per_env s.model_ref : Nat) : Int) ∧
    (BATCHED_GATHER field per_env buf_get buf_set (some s)).1.buf =
      some ((s.datas.map field).flatten) ∧
    ∀ b, (BATCHED_GATHER field per_env buf_get buf_set (some s)).1.buf = some b →
      b.length = s.num_envs * per_env s.model_ref ∧
      ∀ i, i < s.num_envs →
        (b.drop (i * per_env s.model_ref)).take (per_env s.model_ref) =
          field (s.datas.getD i default) := by
  have hspec := BATCHED_GATHER_spec field per_env buf_get buf_set s hN hbuf hfield
  have huniform : ∀ x ∈ s.datas.map field, x.length = per_env s.model_ref :=
    mem_map_length_uniform s.datas field (per_env s.model_ref)
      (fun i hi => hfield i (by omega))
  refine ⟨by rw [hspec], by rw [hspec], ?_⟩
  intro b hb
  refine ⟨?_, fun i hi => BATCHED_GATHER_block field per_env buf_get buf_set s
    hN hbuf hfield b hb i hi⟩
  rw [hspec] at hb
  have hbval : b = (s.datas.map field).flatten := by
    injection hb with h2
    exact h2.symm
  subst hbval
  rw [flatten_length_uniform _ _ huniform]
  simp [hN]

/-- Witness for C2: the qpos gather on the concrete one-environment pool
`exSim` reports length 1 × nq = 2 and returns slot 0's qpos values. -/
theorem C2_batched_gather_layout_witness :
    (BATCHED_GATHER (fun d => d.qpos) (fun m => m.nq) (fun s => s.qpos_buf)
      (fun s b => { s with qpos_buf := b }) (some exSim)).1.buf =
      some [10, 11] := by
  have h := C2_batched_gather_layout (fun d => d.qpos) (fun m => m.nq)
    (fun s => s.qpos_buf) (fun s b => { s with qpos_buf := b }) exSim
    (by decide) (by decide) (by decide)
  rw [h.2.1]
  rfl

/-- Slot formula for a batched step on a live pool: slot i of the result is
the physics step applied to slot i's pre-step state with its own control
slice `ctrl[i*nu : i*nu+nu]` copied into the control vector. -/
lemma batched_step_slot (stepFn : MjModel → MjData → MjData)
    (s s2 : MjAccessBatchedSim) (c : List Val) (i : Nat)
    (hstep : mjaccess_batched_step stepFn (some s) (some c) = some s2)
    (hi : i < s.num_envs) :
    s2.datas.getD i default =
      stepFn s.model_ref
        { s.datas.getD i default with
          ctrl := writeAt (s.datas.getD i default).ctrl 0
            ((c.drop (i * s.model_ref.nu)).take s.model_ref.nu) } := by
  simp only [mjaccess_batched_step, Option.some.injEq] at hstep
  rw [← hstep]
  simp only []
  rw [getD_map_range _ _ _ _ hi]

/-- `mjaccess_set_ctrl` applied to an exact control slice performs the same
control-vector write as the per-slot memcpy inside the batched step. -/
lemma set_ctrl_slice (d : MjData) (c : List Val) (off nu : Nat) :
    mjaccess_set_ctrl (some d) (some ((c.drop off).take nu)) ((nu : Nat) : Int) =
      some { d with ctrl := writeAt d.ctrl 0 ((c.drop off).take nu) } := by
  rw [mjaccess_set_ctrl]
  by_cases hnu : nu = 0
  · subst hnu
    norm_num
    rfl
  · have hpos : ¬ (((nu : Nat) : Int) ≤ 0) := by omega
    rw [if_neg hpos, Int.toNat_natCast]
    simp [List.take_take]

/-- C1: a batched step on a live pool equals N independent single-environment
steps.  For every in-range slot i, the single-environment path — copy the
control slice `controls[i*nu : i*nu+nu]` via `mjaccess_set_ctrl`, then
advance via `mjaccess_step` — applied to slot i's pre-step state produces
exactly slot i of the batched result; and slot i's post-step state is a pure
function of slot i's pre-step state and its own control slice alone (any
pool and flat buffer agreeing on those produce the same post-step slot). -/
theorem C1_batched_step_refines_single (stepFn : MjModel → MjData → MjData)
    (s s2 : MjAccessBatchedSim) (c : List Val)
    (hN : s.datas.length = s.num_envs)
    (hc : s.num_envs * s.model_ref.nu ≤ c.length)
    (hstep : mjaccess_batched_step stepFn (some s) (some c) = some s2)
    (i : Nat) (hi : i < s.num_envs) :
    mjaccess_step stepFn (some s.model_ref)
      (mjaccess_set_ctrl (some (s.datas.getD i default))
        (some ((c.drop (i * s.model_ref.nu)).take s.model_ref.nu))
        ((s.model_ref.nu : Nat) : Int)) = some (s2.datas.getD i default) ∧
    (∀ (t t2 : MjAccessBatchedSim) (c2 : List Val),
      t.model_ref = s.model_ref →
      t.datas.getD i default = s.datas.getD i default →
      i < t.num_envs →
      (c2.drop (i * s.model_ref.nu)).take s.model_ref.nu =
        (c.drop (i * s.model_ref.nu)).take s.model_ref.nu →
      mjaccess_batched_step stepFn (some t) (some c2) = some t2 →
      t2.datas.getD i default = s2.datas.getD i default) := by
  have hmain := batched_step_slot stepFn s s2 c i hstep hi
  constructor
  · rw [hmain, set_ctrl_slice, mjaccess_step]
  · intro t t2 c2 hmeq hdeq hit hceq hstep2
    have h2 := batched_step_slot stepFn t t2 c2 i hstep2 hit
    rw [h2, hmeq, hdeq, hceq, hmain]

/-- The one-environment pool `exSim` after one batched step under the
identity physics step with flat control buffer `[99]`: slot 0 keeps its
state except that its control vector now holds the copied control slice. -/
def exSimStepped : MjAccessBatchedSim :=
  { exSim with datas := [{ exData with ctrl := [99] }] }

/-- Witness for C1 at the concrete pool `exSim`, the identity step function,
flat controls `[99]` and slot 0. -/
theorem C1_batched_step_refines_single_witness :
    mjaccess_step (fun _ d => d) (some exSim.model_ref)
      (mjaccess_set_ctrl (some (exSim.datas.getD 0 default))
        (some ((([99] : List Val).drop (0 * exSim.model_ref.nu)).take exSim.model_ref.nu))
        ((exSim.model_ref.nu : Nat) : Int)) = some (exSimStepped.datas.getD 0 default) :=
  (C1_batched_step_refines_single (fun _ d => d) exSim exSimStepped [99]
    (by decide) (by decide) (by decide) 0 (by decide)).1

/-- C5: a masked reset on a live pool reinitializes exactly the slots whose
mask entry is true to the model's default state, leaves every slot with a
false mask entry unchanged, and with an all-false mask leaves the whole pool
(every slot, byte for byte) unchanged. -/
theorem C5_masked_reset (defaultState : MjModel → MjData)
    (s s2 : MjAccessBatchedSim) (mask : List Bool)
    (hN : s.datas.length = s.num_envs)
    (hm : mask.length = s.num_envs)
    (hr : mjaccess_batched_reset defaultState (some s) (some mask) = some s2) :
    (∀ i, i < s.num_envs → mask.getD i false = true →
      s2.datas.getD i default = defaultState s.model_ref) ∧
    (∀ i, i < s.num_envs → mask.getD i false = false →
      s2.datas.getD i default = s.datas.getD i default) ∧
    ((∀ i, i < s.num_envs → mask.getD i false = false) → s2 = s) := by
  simp only [mjaccess_batched_reset, Option.some.injEq] at hr
  refine ⟨?_, ?_, ?_⟩
  · intro i hi htrue
    rw [← hr]
    simp only []
    rw [getD_map_range _ _ _ _ hi, htrue]
    simp
  · intro i hi hfalse
    rw [← hr]
    simp only []
    rw [getD_map_range _ _ _ _ hi, hfalse]
    simp
  · intro hall
    rw [← hr]
    have hmap : (List.range s.num_envs).map (fun i =>
        if mask.getD i false then defaultState s.model_ref
        else s.datas.getD i default) =
        (List.range s.num_envs).map (fun i => s.datas.getD i default) := by
      apply List.map_congr_left
      intro i hmem
      rw [List.mem_range] at hmem
      rw [hall i hmem]
      simp
    have hid : (List.range s.num_envs).map (fun i => s.datas.getD i default) =
        s.datas := by
      rw [← hN]
      exact map_getD_range_self s.datas default
    rw [hmap, hid]

/-- Witness for C5 at the concrete pool `exSim` with the all-true mask
`[true]` and a default state producing the zeroed `default` record. -/
theorem C5_masked_reset_witness :
    ({ exSim with datas := [default] } : MjAccessBatchedSim).datas.getD 0 default =
      (fun _ : MjModel => (default : MjData)) exSim.model_ref :=
  (C5_masked_reset (fun _ => default) exSim { exSim with datas := [default] }
    [true] (by decide) (by decide) (by decide)).1 0 (by decide) (by decide)

/-- `getD` on a replicated list. -/
lemma getD_replicate {α : Type} (a d : α) (n i : Nat) (h : i < n) :
    (List.replicate n a).getD i d = a := by
  rw [List.getD_eq_getElem _ _ (by simpa using h)]
  simp

/-- One batched step on a pool whose N slots are all in the same state `dn`,
with a flat control buffer whose per-environment slices all equal the
leading slice, keeps all N slots equal. -/
lemma batched_step_replicate (stepFn : MjModel → MjData → MjData)
    (s : MjAccessBatchedSim) (dn : MjData) (c : List Val)
    (hdatas : s.datas = List.replicate s.num_envs dn)
    (hslice : ∀ i, i < s.num_envs →
      (c.drop (i * s.model_ref.nu)).take s.model_ref.nu =
        c.take s.model_ref.nu) :
    mjaccess_batched_step stepFn (some s) (some c) =
      some { s with datas :=
        (List.replicate s.num_envs
          (stepFn s.model_ref
            { dn with ctrl := writeAt dn.ctrl 0 (c.take s.model_ref.nu) })) } := by
  simp only [mjaccess_batched_step, Option.some.injEq]
  rw [hdatas]
  congr 1
  have hconst : (List.range s.num_envs).map (fun i =>
      let d := (List.replicate s.num_envs dn).getD i default
      stepFn s.model_ref
        { d with ctrl := writeAt d.ctrl 0 ((c.drop (i * s.model_ref.nu)).take s.model_ref.nu) }) =
      (List.range s.num_envs).map (fun _ => stepFn s.model_ref
        { dn with ctrl := writeAt dn.ctrl 0 (c.take s.model_ref.nu) }) := by
    apply List.map_congr_left
    intro i hmem
    rw [List.mem_range] at hmem
    simp only []
    rw [getD_replicate _ _ _ _ hmem, hslice i hmem]
  rw [hconst]
  simp

/-- Parity invariant: k batched steps on a pool whose N slots all start in
the same state `d0`, with flat control buffers whose per-environment slices
all equal the leading slice, keep every slot equal to the common
single-environment trajectory `envStepIter`. -/
lemma batchedStepIter_replicate (stepFn : MjModel → MjData → MjData)
    (s : MjAccessBatchedSim) (d0 : MjData) (ctrls : Nat → List Val)
    (hdatas : s.datas = List.replicate s.num_envs d0)
    (hslice : ∀ t i, i < s.num_envs →
      ((ctrls t).drop (i * s.model_ref.nu)).take s.model_ref.nu =
        (ctrls t).take s.model_ref.nu) :
    ∀ k, batchedStepIter stepFn (some s) ctrls k =
      some { s with datas :=
        List.replicate s.num_envs (envStepIter stepFn s.model_ref d0 ctrls k) } := by
  intro k
  induction k with
  | zero =>
      rw [batchedStepIter, envStepIter, ← hdatas]
  | succ n ih =>
      rw [batchedStepIter, ih]
      have hstep := batched_step_replicate stepFn
        { s with datas :=
            List.replicate s.num_envs (envStepIter stepFn s.model_ref d0 ctrls n) }
        (envStepIter stepFn s.model_ref d0 ctrls n) (ctrls n) rfl
        (fun i hi => hslice n i hi)
      rw [hstep]
      rfl

/-- C9: for a deterministic underlying step primitive, stepping a pool of N
slots that all start in identical states, with flat control buffers whose
per-environment slices are all identical, for k steps yields slots that are
pairwise identical across environments, and every batched gather (any
BATCHED_GATHER instance satisfying the pool invariants) then returns a
buffer whose per-environment blocks are pairwise identical. -/
theorem C9_parity (stepFn : MjModel → MjData → MjData)
    (s s2 : MjAccessBatchedSim) (d0 : MjData) (ctrls : Nat → List Val) (k : Nat)
    (hdatas : s.datas = List.replicate s.num_envs d0)
    (hslice : ∀ t i, i < s.num_envs →
      ((ctrls t).drop (i * s.model_ref.nu)).take s.model_ref.nu =
        (ctrls t).take s.model_ref.nu)
    (hk : batchedStepIter stepFn (some s) ctrls k = some s2) :
    (∀ i j, i < s2.num_envs → j < s2.num_envs →
      s2.datas.getD i default = s2.datas.getD j default) ∧
    (∀ (field : MjData → List Val) (per_env : MjModel → Nat)
      (buf_get : MjAccessBatchedSim → List Val)
      (buf_set : MjAccessBatchedSim → List Val → MjAccessBatchedSim)
      (b : List Val),
      (buf_get s2).length = s2.num_envs * per_env s2.model_ref →
      (∀ i, i < s2.num_envs →
        (field (s2.datas.getD i default)).length = per_env s2.model_ref) →
      (BATCHED_GATHER field per_env buf_get buf_set (some s2)).1.buf = some b →
      ∀ i j, i < s2.num_envs → j < s2.num_envs →
        (b.drop (i * per_env s2.model_ref)).take (per_env s2.model_ref) =
          (b.drop (j * per_env s2.model_ref)).take (per_env s2.model_ref)) := by
  have hrep := batchedStepIter_replicate stepFn s d0 ctrls hdatas hslice k
  rw [hrep] at hk
  have hs2 :
      s2 =
        { s with datas :=
            List.replicate s.num_envs (envStepIter stepFn s.model_ref d0 ctrls k) } := by
    injection hk with h2
    exact h2.symm
  have hslot : ∀ i, i < s2.num_envs →
      s2.datas.getD i default = envStepIter stepFn s.model_ref d0 ctrls k := by
    intro i hi
    rw [hs2] at hi ⊢
    exact getD_replicate _ _ _ _ hi
  have hN2 : s2.datas.length = s2.num_envs := by
    rw [hs2]
    simp
  constructor
  · intro i j hi hj
    rw [hslot i hi, hslot j hj]
  · intro field per_env buf_get buf_set b hbuf hfield hb i j hi hj
    rw [BATCHED_GATHER_block field per_env buf_get buf_set s2 hN2 hbuf hfield
        b hb i hi,
      BATCHED_GATHER_block field per_env buf_get buf_set s2 hN2 hbuf hfield
        b hb j hj,
      hslot i hi, hslot j hj]

/-- A concrete two-environment pool over `exModel` with identical slots and
every gather buffer at its allocated size. -/
def exPool2 : MjAccessBatchedSim :=
  { model_ref := exModel, num_envs := 2, datas := [exData, exData]
    qpos_buf := List.replicate 4 0, qvel_buf := List.replicate 4 0
    xpos_buf := List.replicate 6 0, subtree_com_buf := List.replicate 6 0
    cinert_buf := List.replicate 20 0, cvel_buf := List.replicate 12 0
    qfrc_actuator_buf := List.replicate 4 0, cfrc_ext_buf := List.replicate 12 0 }

/-- `exPool2` after one batched step under the identity physics step with
flat controls `[99, 99]`: both slots hold the same state with the common
control slice written. -/
def exPool2Stepped : MjAccessBatchedSim :=
  { exPool2 with datas :=
      [{ exData with ctrl := [99] }, { exData with ctrl := [99] }] }

/-- Witness for C9: one step of the two identical environments of `exPool2`
under identical control slices leaves slots 0 and 1 identical. -/
theorem C9_parity_witness :
    exPool2Stepped.datas.getD 0 default = exPool2Stepped.datas.getD 1 default :=
  (C9_parity (fun _ d => d) exPool2 exPool2Stepped exData (fun _ => [99, 99]) 1
    (by decide)
    (by
      intro t i hi
      have h2 : i < 2 := hi
      interval_cases i <;> rfl)
    (by decide)).1 0 1 (by decide) (by decide)

/-- C3 counterexample: on the concrete pool `exSim` (field capacity
nq = 2), a per-slot scatter with a values buffer of length 3 executes a
memcpy of 3 elements — not min(3, 2) = 2 as the claim states — and that
count exceeds the target field's capacity, i.e. the unclamped memcpy writes
out of bounds. -/
theorem C3_truncating_scatter_counterexample :
    mjaccess_batched_set_env_qpos_copyCount (some exSim) 0 true 3 ≠
      min 3 exSim.model_ref.nq ∧
    exSim.model_ref.nq <
      mjaccess_batched_set_env_qpos_copyCount (some exSim) 0 true 3 := by
  decide

/-- C3 (amended): for an in-range slot index and a values buffer of length
n that does not exceed the field's required length, the per-slot scatter
(qpos and qvel alike) copies exactly the n leading elements into slot i's
field — which then equals min(n, requiredLen) — never writes out of bounds,
leaves the remainder of the target field and every other field and slot
unmodified; an out-of-range slot index is a no-op.  (For n greater than the
required length the C memcpy is unclamped, so the original claim fails;
see the counterexample.) -/
theorem C3_amended_truncating_scatter (s s2 s3 : MjAccessBatchedSim)
    (env_idx : Int) (v w : List Val) (n m : Nat)
    (hN : s.datas.length = s.num_envs)
    (hin : 0 ≤ env_idx) (hin2 : env_idx < (s.num_envs : Int))
    (hv : v.length = n) (hn : n ≤ s.model_ref.nq)
    (hw : w.length = m) (hm2 : m ≤ s.model_ref.nv)
    (hq : mjaccess_batched_set_env_qpos (some s) env_idx (some v) n = some s2)
    (hr : mjaccess_batched_set_env_qvel (some s) env_idx (some w) m = some s3) :
    (mjaccess_batched_set_env_qpos_copyCount (some s) env_idx true n =
      min n s.model_ref.nq) ∧
    (mjaccess_batched_set_env_qpos_copyCount (some s) env_idx true n ≤
      s.model_ref.nq) ∧
    (s2.datas.getD env_idx.toNat default =
      { s.datas.getD env_idx.toNat default with
          qpos := v ++ (s.datas.getD env_idx.toNat default).qpos.drop n }) ∧
    (∀ j, j < s.num_envs → j ≠ env_idx.toNat →
      s2.datas.getD j default = s.datas.getD j default) ∧
    (mjaccess_batched_set_env_qvel_copyCount (some s) env_idx true m =
      min m s.model_ref.nv) ∧
    (mjaccess_batched_set_env_qvel_copyCount (some s) env_idx true m ≤
      s.model_ref.nv) ∧
    (s3.datas.getD env_idx.toNat default =
      { s.datas.getD env_idx.toNat default with
          qvel := w ++ (s.datas.getD env_idx.toNat default).qvel.drop m }) ∧
    (∀ j, j < s.num_envs → j ≠ env_idx.toNat →
      s3.datas.getD j default = s.datas.getD j default) ∧
    (∀ (e2 : Int) (u : List Val) (k : Nat),
      (e2 < 0 ∨ (s.num_envs : Int) ≤ e2) →
      mjaccess_batched_set_env_qpos (some s) e2 (some u) k = some s ∧
      mjaccess_batched_set_env_qvel (some s) e2 (some u) k = some s) := by
  have hguard : ¬ (env_idx < 0 ∨ (s.num_envs : Int) ≤ env_idx) := by omega
  have hilt : env_idx.toNat < s.num_envs := by omega
  simp only [mjaccess_batched_set_env_qpos, if_neg hguard, Option.some.injEq] at hq
  simp only [mjaccess_batched_set_env_qvel, if_neg hguard, Option.some.injEq] at hr
  refine ⟨?_, ?_, ?_, ?_, ?_, ?_, ?_, ?_, ?_⟩
  · rw [mjaccess_batched_set_env_qpos_copyCount, if_pos ⟨rfl, hin, hin2⟩]
    omega
  · rw [mjaccess_batched_set_env_qpos_copyCount, if_pos ⟨rfl, hin, hin2⟩]
    exact hn
  · rw [← hq]
    simp only []
    rw [getD_map_range _ _ _ _ hilt, if_pos rfl]
    subst hv
    simp [writeAt]
  · intro j hj hne
    rw [← hq]
    simp only []
    rw [getD_map_range _ _ _ _ hj, if_neg hne]
  · rw [mjaccess_batched_set_env_qvel_copyCount, if_pos ⟨rfl, hin, hin2⟩]
    omega
  · rw [mjaccess_batched_set_env_qvel_copyCount, if_pos ⟨rfl, hin, hin2⟩]
    exact hm2
  · rw [← hr]
    simp only []
    rw [getD_map_range _ _ _ _ hilt, if_pos rfl]
    subst hw
    simp [writeAt]
  · intro j hj hne
    rw [← hr]
    simp only []
    rw [getD_map_range _ _ _ _ hj, if_neg hne]
  · intro e2 u k h
    constructor
    · rw [mjaccess_batched_set_env_qpos, if_pos h]
    · rw [mjaccess_batched_set_env_qvel, if_pos h]

/-- `exSim` after scattering qpos values `[7, 8]` into slot 0. -/
def exSimQposSet : MjAccessBatchedSim :=
  { exSim with datas := [{ exData with qpos := [7, 8] }] }

/-- `exSim` after scattering the single qvel value `[9]` into slot 0:
only the leading element changes, the remainder of qvel is unmodified. -/
def exSimQvelSet : MjAccessBatchedSim :=
  { exSim with datas := [{ exData with qvel := [9, 21] }] }

/-- Witness for the amended C3 at `exSim`, slot 0, a full-length qpos buffer
and a truncated (length-1) qvel buffer. -/
theorem C3_amended_truncating_scatter_witness :
    exSimQvelSet.datas.getD 0 default =
      { exSim.datas.getD 0 default with
          qvel := [9] ++ (exSim.datas.getD 0 default).qvel.drop 1 } :=
  (C3_amended_truncating_scatter exSim exSimQposSet exSimQvelSet 0 [7, 8] [9]
    2 1 (by decide) (by decide) (by decide) (by decide) (by decide)
    (by decide) (by decide) (by decide) (by decide)).2.2.2.2.2.2.1

/-- C4 counterexample: on the concrete pool `exSim` over a model with
nv = 2 and nu = 1, the batched actuator-force gather reports length
N × nv = 2, not N × nu = 1 as the claim states. -/
theorem C4_qfrc_actuator_dim_counterexample :
    (mjaccess_batched_get_qfrc_actuator (some exSim)).1.n_out ≠
      ((exSim.num_envs * exSim.model_ref.nu : Nat) : Int) := by
  decide

/-- C4 (amended): the exported actuator-force field (`qfrc_actuator`) has a
per-environment dimension equal to the generalized-velocity dimension nv
(one generalized force per degree of freedom), not the control dimension nu:
under the pool invariants the batched actuator-force gather reports length
N × nv and block i of the returned buffer holds slot i's nv actuator-force
values. -/
theorem C4_amended_qfrc_actuator_dim (s : MjAccessBatchedSim)
    (hN : s.datas.length = s.num_envs)
    (hbuf : s.qfrc_actuator_buf.length = s.num_envs * s.model_ref.nv)
    (hfield : ∀ i, i < s.num_envs →
      (s.datas.getD i default).qfrc_actuator.length = s.model_ref.nv) :
    (mjaccess_batched_get_qfrc_actuator (some s)).1.n_out =
      ((s.num_envs * s.model_ref.nv : Nat) : Int) ∧
    ∀ b, (mjaccess_batched_get_qfrc_actuator (some s)).1.buf = some b →
      ∀ i, i < s.num_envs →
        (b.drop (i * s.model_ref.nv)).take s.model_ref.nv =
          (s.datas.getD i default).qfrc_actuator := by
  constructor
  · rw [mjaccess_batched_get_qfrc_actuator,
      BATCHED_GATHER_spec (fun d => d.qfrc_actuator) (fun m => m.nv) _ _ s hN
        hbuf hfield]
  · intro b hb i hi
    rw [mjaccess_batched_get_qfrc_actuator] at hb
    exact BATCHED_GATHER_block (fun d => d.qfrc_actuator) (fun m => m.nv) _ _ s
      hN hbuf hfield b hb i hi

/-- Witness for the amended C4: the actuator-force gather on `exSim`
reports length 1 × nv = 2. -/
theorem C4_amended_qfrc_actuator_dim_witness :
    (mjaccess_batched_get_qfrc_actuator (some exSim)).1.n_out =
      ((exSim.num_envs * exSim.model_ref.nv : Nat) : Int) :=
  (C4_amended_qfrc_actuator_dim exSim (by decide) (by decide) (by decide)).1

/-- The slot-allocation loop succeeds on every entry exactly when each of
the `count` allocation calls starting at `start` succeeds. -/
lemma fillLoop_all_isSome (makeData : Nat → Option MjData) :
    ∀ (count start : Nat),
      ((fillLoop makeData start count).all (fun e => e.isSome) = true ↔
        ∀ i, i < count → (makeData (start + i)).isSome = true) := by
  intro count
  induction count with
  | zero =>
      intro start
      simp [fillLoop]
  | succ n ih =>
      intro start
      rw [fillLoop]
      cases hmd : makeData start with
      | none =>
          simp only [List.all_eq_true]
          constructor
          · intro hall
            have h0 : (none : Option MjData) ∈ List.replicate (n + 1) none := by
              simp
            have := hall none h0
            simp at this
          · intro hall
            have h0 := hall 0 (by omega)
            rw [Nat.add_zero, hmd] at h0
            simp at h0
      | some d =>
          simp only [List.all_cons, Option.isSome_some, Bool.true_and]
          rw [ih (start + 1)]
          constructor
          · intro hall i hi
            cases i with
            | zero =>
                rw [Nat.add_zero, hmd]
                rfl
            | succ j =>
                have := hall j (by omega)
                rwa [show start + 1 + j = start + (j + 1) by omega] at this
          · intro hall i hi
            have := hall (i + 1) (by omega)
            rwa [show start + (i + 1) = start + 1 + i by omega] at this

/-- C6: pool creation reports failure — a NULL pool, never a partial one —
whenever the model handle is NULL, the configuration is NULL or requests
N ≤ 0 environments, or any of the N per-slot allocations fails; and on
every failure path the number of per-slot states released by the cleanup
equals the number allocated, so no slot leaks. -/
theorem C6_create_failure (model : Option MjModel)
    (config : Option MjAccessBatchedConfig) (makeData : Nat → Option MjData)
    (h : model = none ∨ config = none ∨
      (∃ cfg, config = some cfg ∧ cfg.num_envs ≤ 0) ∨
      (∃ cfg, config = some cfg ∧
        ∃ i, i < cfg.num_envs.toNat ∧ makeData i = none)) :
    (mjaccess_batched_create model config makeData).sim = none ∧
    (mjaccess_batched_create model config makeData).slotsFreed =
      (mjaccess_batched_create model config makeData).slotsAllocated := by
  rcases h with h | h | ⟨cfg, hcfg, hle⟩ | ⟨cfg, hcfg, i, hi, hmd⟩
  · subst h
    cases config with
    | none => exact ⟨rfl, rfl⟩
    | some cfg => exact ⟨rfl, rfl⟩
  · subst h
    cases model with
    | none => exact ⟨rfl, rfl⟩
    | some m => exact ⟨rfl, rfl⟩
  · subst hcfg
    cases model with
    | none => exact ⟨rfl, rfl⟩
    | some m =>
        simp [mjaccess_batched_create, if_pos hle]
  · subst hcfg
    cases model with
    | none => exact ⟨rfl, rfl⟩
    | some m =>
        by_cases hle : cfg.num_envs ≤ 0
        · simp [mjaccess_batched_create, if_pos hle]
        · have hall : ¬ ((fillLoop makeData 0 cfg.num_envs.toNat).all
              (fun e => e.isSome) = true) := by
            rw [fillLoop_all_isSome]
            intro hforall
            have h2 := hforall i hi
            rw [Nat.zero_add, hmd] at h2
            simp at h2
          have hall2 : ¬ (∀ x ∈ fillLoop makeData 0 cfg.num_envs.toNat,
              x.isSome = true) := by
            rw [← List.all_eq_true]
            exact hall
          simp [mjaccess_batched_create, if_neg hle, if_neg hall2]

/-- An allocation oracle whose first call succeeds and whose second call
fails: creating a two-environment pool with it exercises the partial-failure
cleanup path. -/
def exMakeDataFailTail : Nat → Option MjData :=
  fun i => if i = 0 then some exData else none

/-- Witness for C6 on the partial-allocation-failure path: creating a
two-environment pool whose second slot allocation fails yields a NULL pool
with every allocated slot released. -/
theorem C6_create_failure_witness :
    (mjaccess_batched_create (some exModel)
      (some { num_envs := 2, solver_iterations := 0 }) exMakeDataFailTail).sim =
      none ∧
    (mjaccess_batched_create (some exModel)
      (some { num_envs := 2, solver_iterations := 0 }) exMakeDataFailTail).slotsFreed =
    (mjaccess_batched_create (some exModel)
      (some { num_envs := 2, solver_iterations := 0 }) exMakeDataFailTail).slotsAllocated :=
  C6_create_failure (some exModel) (some { num_envs := 2, solver_iterations := 0 })
    exMakeDataFailTail
    (Or.inr (Or.inr (Or.inr ⟨{ num_envs := 2, solver_iterations := 0 }, rfl, 1,
      by decide, by decide⟩)))

/-- C7: the shared model is mutated by the batch engine only by the one-time
solver-iteration override during pool creation, and only when the
configuration requests it (solver_iterations > 0) — otherwise creation
leaves the model exactly as passed; and no other batched operation — step,
reset, any of the eight gathers, or the per-slot scatters — changes the
pool's model reference. -/
theorem C7_shared_model_immutable :
    (∀ (m : MjModel) (cfg : MjAccessBatchedConfig)
      (makeData : Nat → Option MjData),
      (mjaccess_batched_create (some m) (some cfg) makeData).modelAfter = some m ∨
      (0 < cfg.solver_iterations ∧
        (mjaccess_batched_create (some m) (some cfg) makeData).modelAfter =
          some { m with optIterations := cfg.solver_iterations })) ∧
    (∀ stepFn sim c, (mjaccess_batched_step stepFn sim c).map
      (fun s => s.model_ref) = sim.map (fun s => s.model_ref)) ∧
    (∀ ds sim mask, (mjaccess_batched_reset ds sim mask).map
      (fun s => s.model_ref) = sim.map (fun s => s.model_ref)) ∧
    (∀ sim, (mjaccess_batched_get_qpos sim).2.map (fun s => s.model_ref) =
      sim.map (fun s => s.model_ref)) ∧
    (∀ sim, (mjaccess_batched_get_qvel sim).2.map (fun s => s.model_ref) =
      sim.map (fun s => s.model_ref)) ∧
    (∀ sim, (mjaccess_batched_get_xpos sim).2.map (fun s => s.model_ref) =
      sim.map (fun s => s.model_ref)) ∧
    (∀ sim, (mjaccess_batched_get_subtree_com sim).2.map (fun s => s.model_ref) =
      sim.map (fun s => s.model_ref)) ∧
    (∀ sim, (mjaccess_batched_get_cinert sim).2.map (fun s => s.model_ref) =
      sim.map (fun s => s.model_ref)) ∧
    (∀ sim, (mjaccess_batched_get_cvel sim).2.map (fun s => s.model_ref) =
      sim.map (fun s => s.model_ref)) ∧
    (∀ sim, (mjaccess_batched_get_qfrc_actuator sim).2.map (fun s => s.model_ref) =
      sim.map (fun s => s.model_ref)) ∧
    (∀ sim, (mjaccess_batched_get_cfrc_ext sim).2.map (fun s => s.model_ref) =
      sim.map (fun s => s.model_ref)) ∧
    (∀ sim e v n, (mjaccess_batched_set_env_qpos sim e v n).map
      (fun s => s.model_ref) = sim.map (fun s => s.model_ref)) ∧
    (∀ sim e v n, (mjaccess_batched_set_env_qvel sim e v n).map
      (fun s => s.model_ref) = sim.map (fun s => s.model_ref)) := by
  refine ⟨?_, ?_, ?_, ?_, ?_, ?_, ?_, ?_, ?_, ?_, ?_, ?_, ?_⟩
  · intro m cfg makeData
    by_cases hle : cfg.num_envs ≤ 0
    · left
      simp only [mjaccess_batched_create, if_pos hle]
    · by_cases hall : (fillLoop makeData 0 cfg.num_envs.toNat).all
          (fun e => e.isSome) = true
      · by_cases hsi : 0 < cfg.solver_iterations
        · right
          refine ⟨hsi, ?_⟩
          simp only [mjaccess_batched_create, if_neg hle, if_pos hall, if_pos hsi]
        · left
          simp only [mjaccess_batched_create, if_neg hle, if_pos hall, if_neg hsi]
      · left
        simp only [mjaccess_batched_create, if_neg hle, if_neg hall]
  · intro stepFn sim c
    cases sim with
    | none => cases c <;> rfl
    | some s => cases c <;> rfl
  · intro ds sim mask
    cases sim with
    | none => cases mask <;> rfl
    | some s => cases mask <;> rfl
  · intro sim
    cases sim <;> rfl
  · intro sim
    cases sim <;> rfl
  · intro sim
    cases sim <;> rfl
  · intro sim
    cases sim <;> rfl
  · intro sim
    cases sim <;> rfl
  · intro sim
    cases sim <;> rfl
  · intro sim
    cases sim <;> rfl
  · intro sim
    cases sim <;> rfl
  · intro sim e v n
    cases sim with
    | none => cases v <;> rfl
    | some s =>
        cases v with
        | none => rfl
        | some v =>
            rw [mjaccess_batched_set_env_qpos]
            split <;> rfl
  · intro sim e v n
    cases sim with
    | none => cases v <;> rfl
    | some s =>
        cases v with
        | none => rfl
        | some v =>
            rw [mjaccess_batched_set_env_qvel]
            split <;> rfl

/-- C8: destroying a NULL (already-destroyed) pool is a no-op — the call
releases no slot and no buffer, and (being total) does not fault. -/
theorem C8_destroy_null_noop :
    mjaccess_batched_free none = { slotsFreed := 0, buffersFreed := 0 } :=
  rfl

/-- C10: every batched operation given a NULL argument is a safe no-op at
the public interface: a batched step with a NULL pool or NULL control buffer
and a batched reset with a NULL pool or NULL mask leave the pool unchanged,
and every batched gather on a NULL pool returns a NULL buffer with the
reported length set to 0. -/
theorem C10_null_arguments_safe :
    (∀ (stepFn : MjModel → MjData → MjData) (c : Option (List Val)),
      mjaccess_batched_step stepFn none c = none) ∧
    (∀ (stepFn : MjModel → MjData → MjData) (s : MjAccessBatchedSim),
      mjaccess_batched_step stepFn (some s) none = some s) ∧
    (∀ (ds : MjModel → MjData) (mask : Option (List Bool)),
      mjaccess_batched_reset ds none mask = none) ∧
    (∀ (ds : MjModel → MjData) (s : MjAccessBatchedSim),
      mjaccess_batched_reset ds (some s) none = some s) ∧
    mjaccess_batched_get_qpos none = ({ buf := none, n_out := 0 }, none) ∧
    mjaccess_batched_get_qvel none = ({ buf := none, n_out := 0 }, none) ∧
    mjaccess_batched_get_xpos none = ({ buf := none, n_out := 0 }, none) ∧
    mjaccess_batched_get_subtree_com none = ({ buf := none, n_out := 0 }, none) ∧
    mjaccess_batched_get_cinert none = ({ buf := none, n_out := 0 }, none) ∧
    mjaccess_batched_get_cvel none = ({ buf := none, n_out := 0 }, none) ∧
    mjaccess_batched_get_qfrc_actuator none = ({ buf := none, n_out := 0 }, none) ∧
    mjaccess_batched_get_cfrc_ext none = ({ buf := none, n_out := 0 }, none) := by
  refine ⟨?_, ?_, ?_, ?_, rfl, rfl, rfl, rfl, rfl, rfl, rfl, rfl⟩
  · intro stepFn c
    cases c <;> rfl
  · intro stepFn s
    rfl
  · intro ds mask
    cases mask <;> rfl
  · intro ds s
    rfl

end MjAccess
